import Mathlib

/-!
Verification development for the Trac-wiki → Markdown converter
(`script/wiki.py`, class `WikiConverter`).

The converter is a pipeline of whole-text regex substitution passes sharing
one converter object.  This file gives a shallow embedding of the module:

* `sha256Hex` models the module-level `hash` helper
  (`hashlib.sha256(bytes(text,'utf-8')).hexdigest()`), implemented to the
  FIPS 180-4 specification over `Nat` with explicit `% 2^32` reductions.
* each compiled pattern `_re_*` of `WikiConverter` is embedded as a
  hand-derived leftmost-match scanner over `List Char`, mirroring the
  backtracking behaviour of CPython's `re` engine on that pattern
  (greedy/lazy repetition, lookbehind, group capture, conditional groups);
* each `_callback_*` method is embedded verbatim, including the CPython
  `dict`/`Match` semantics it relies on (`groupdict()` key lookup with
  defaults, `None` rendering in `str.format`, `match.group` by name);
* `re.sub` is embedded as `reSub`, a fuelled scan that replaces each
  non-overlapping leftmost match and resumes after it; a callback that
  raises is modelled by `Option` (`none` = exception), and CPython's
  treatment of a callback returning `None` as an empty replacement is
  modelled where the source callback falls through without `return`.

Character classes (`\s`, `\w`) are modelled on their ASCII parts; no input
considered here contains non-ASCII characters.
-/

namespace TracWiki

/-! ## SHA-256 (`hash` in `wiki.py`)

`def hash(text): algo = hashlib.sha256(); algo.update(bytes(text,'utf-8'));
return algo.hexdigest()` -/

/-- 2^32 truncation for 32-bit modular arithmetic. -/
def w32 (n : Nat) : Nat := n % 4294967296

/-- Right rotation of a 32-bit word. -/
def rotr (k x : Nat) : Nat := w32 ((x >>> k) ||| (x <<< (32 - k)))

/-- UTF-8 encoding of one character (as byte values), per RFC 3629. -/
def utf8Bytes (c : Char) : List Nat :=
  let n := c.toNat
  if n < 128 then [n]
  else if n < 2048 then [192 + n / 64, 128 + n % 64]
  else if n < 65536 then [224 + n / 4096, 128 + (n / 64) % 64, 128 + n % 64]
  else [240 + n / 262144, 128 + (n / 4096) % 64, 128 + (n / 64) % 64, 128 + n % 64]

/-- UTF-8 byte sequence of a string (`bytes(text, 'utf-8')`). -/
def strBytes (s : List Char) : List Nat := s.flatMap utf8Bytes

/-- SHA-256 round constants. -/
def sha256K : List Nat :=
  [1116352408, 1899447441, 3049323471, 3921009573, 961987163,
   1508970993, 2453635748, 2870763221, 3624381080, 310598401,
   607225278, 1426881987, 1925078388, 2162078206, 2614888103,
   3248222580, 3835390401, 4022224774, 264347078, 604807628,
   770255983, 1249150122, 1555081692, 1996064986, 2554220882,
   2821834349, 2952996808, 3210313671, 3336571891, 3584528711,
   113926993, 338241895, 666307205, 773529912, 1294757372,
   1396182291, 1695183700, 1986661051, 2177026350, 2456956037,
   2730485921, 2820302411, 3259730800, 3345764771, 3516065817,
   3600352804, 4094571909, 275423344, 430227734, 506948616,
   659060556, 883997877, 958139571, 1322822218, 1537002063,
   1747873779, 1955562222, 2024104815, 2227730452, 2361852424,
   2428436474, 2756734187, 3204031479, 3329325298]

/-- Message padding: append `0x80`, zero bytes to 56 mod 64, then the bit
length as an 8-byte big-endian integer. -/
def sha256Pad (msg : List Nat) : List Nat :=
  let len := msg.length
  let zeros := (64 + 55 - len % 64) % 64
  let bitLen := len * 8
  msg ++ [128] ++ List.replicate zeros 0 ++
    [bitLen / 2^56 % 256, bitLen / 2^48 % 256, bitLen / 2^40 % 256,
     bitLen / 2^32 % 256, bitLen / 2^24 % 256, bitLen / 2^16 % 256,
     bitLen / 2^8 % 256, bitLen % 256]

/-- Split a byte list into chunks of 64 (the input length is a multiple
of 64 after padding; `fuel` bounds the recursion). -/
def chunks64 (fuel : Nat) (l : List Nat) : List (List Nat) :=
  match fuel, l with
  | 0, _ => []
  | _, [] => []
  | f + 1, l => l.take 64 :: chunks64 f (l.drop 64)

/-- Big-endian 32-bit words of one 64-byte chunk. -/
def words16 (fuel : Nat) (l : List Nat) : List Nat :=
  match fuel, l with
  | 0, _ => []
  | _, [] => []
  | f + 1, b0 :: b1 :: b2 :: b3 :: t =>
      (b0 * 2^24 + b1 * 2^16 + b2 * 2^8 + b3) :: words16 f t
  | _, _ => []

/-- Extend the 16 message words to 64.  `rev` holds the words produced so
far, most recent first. -/
def sha256Extend (steps : Nat) (rev : List Nat) : List Nat :=
  match steps with
  | 0 => rev.reverse
  | k + 1 =>
      let w2 := rev.getD 1 0
      let w7 := rev.getD 6 0
      let w15 := rev.getD 14 0
      let w16 := rev.getD 15 0
      let s0 := rotr 7 w15 ^^^ rotr 18 w15 ^^^ (w15 >>> 3)
      let s1 := rotr 17 w2 ^^^ rotr 19 w2 ^^^ (w2 >>> 10)
      sha256Extend k (w32 (w16 + s0 + w7 + s1) :: rev)

/-- Working state of the compression function. -/
structure Sha256St where
  a : Nat
  b : Nat
  c : Nat
  d : Nat
  e : Nat
  f : Nat
  g : Nat
  h : Nat
deriving DecidableEq

/-- One compression round. -/
def sha256Round (st : Sha256St) (kw : Nat × Nat) : Sha256St :=
  let S1 := rotr 6 st.e ^^^ rotr 11 st.e ^^^ rotr 25 st.e
  let ch := (st.e &&& st.f) ^^^ ((4294967295 - st.e) &&& st.g)
  let temp1 := w32 (st.h + S1 + ch + kw.1 + kw.2)
  let S0 := rotr 2 st.a ^^^ rotr 13 st.a ^^^ rotr 22 st.a
  let maj := (st.a &&& st.b) ^^^ (st.a &&& st.c) ^^^ (st.b &&& st.c)
  let temp2 := w32 (S0 + maj)
  ⟨w32 (temp1 + temp2), st.a, st.b, st.c, w32 (st.d + temp1), st.e, st.f, st.g⟩

/-- Process one 64-byte chunk. -/
def sha256Chunk (hs : Sha256St) (chunk : List Nat) : Sha256St :=
  let ws := sha256Extend 48 (words16 16 chunk).reverse
  let st := (sha256K.zip ws).foldl sha256Round hs
  ⟨w32 (hs.a + st.a), w32 (hs.b + st.b), w32 (hs.c + st.c), w32 (hs.d + st.d),
   w32 (hs.e + st.e), w32 (hs.f + st.f), w32 (hs.g + st.g), w32 (hs.h + st.h)⟩

/-- One lowercase hexadecimal digit. -/
def hexDigit (n : Nat) : Char :=
  if n < 10 then Char.ofNat (48 + n) else Char.ofNat (87 + n)

/-- Eight lowercase hex digits of a 32-bit word, most significant first. -/
def hex8 (n : Nat) : List Char :=
  [hexDigit (n / 2^28 % 16), hexDigit (n / 2^24 % 16), hexDigit (n / 2^20 % 16),
   hexDigit (n / 2^16 % 16), hexDigit (n / 2^12 % 16), hexDigit (n / 2^8 % 16),
   hexDigit (n / 2^4 % 16), hexDigit (n % 16)]

/-- `hash(text)` from `wiki.py`: the lowercase hex SHA-256 digest of the
UTF-8 encoding of `text`, as a character list. -/
def sha256Hex (s : List Char) : List Char :=
  let msg := sha256Pad (strBytes s)
  let init : Sha256St :=
    ⟨1779033703, 3144134277, 1013904242, 2773480762,
     1359893119, 2600822924, 528734635, 1541459225⟩
  let fin := (chunks64 (msg.length / 64) msg).foldl sha256Chunk init
  hex8 fin.a ++ hex8 fin.b ++ hex8 fin.c ++ hex8 fin.d ++
  hex8 fin.e ++ hex8 fin.f ++ hex8 fin.g ++ hex8 fin.h

/-- Alias with the source's name (`hash` in `wiki.py`). -/
def hash (text : List Char) : List Char := sha256Hex text

/-! ## CPython `dict` / `str` helpers

The callbacks rely on `match.groupdict()` being a `dict` whose keys are the
pattern's group names and whose values are the captured strings, or `None`
for a group that did not participate.  `d.get(k, dflt)` returns the stored
value when the key is present (even when that value is `None`) and the
default otherwise; `k in d` tests key presence.  `str.format` renders a
`None` argument as the four characters `None`. -/

/-- `k in d` for a Python dict modelled as an association list. -/
def dictMem {κ α : Type} [BEq κ] (d : List (κ × α)) (k : κ) : Bool :=
  d.any (fun e => e.1 == k)

/-- `d.get(k, dflt)` for a Python dict modelled as an association list. -/
def dictGet {κ α : Type} [BEq κ] (d : List (κ × α)) (k : κ) (dflt : α) : α :=
  match d.find? (fun e => e.1 == k) with
  | some e => e.2
  | none => dflt

/-- `str(x)` for `x : str | None`, as used by `str.format`. -/
def pyStrO : Option (List Char) → List Char
  | none => "None".data
  | some s => s

/-- Python truthiness of a `str | None` value (`None` and `''` are falsy). -/
def pyTruthyO : Option (List Char) → Bool
  | none => false
  | some [] => false
  | some (_ :: _) => true

/-! ## `re.sub` driver

`pattern.sub(repl, text)` scans left to right, replaces each leftmost
non-overlapping match and resumes immediately after it (every pattern in
`wiki.py` only produces non-empty matches, so the empty-match rule of the
engine never fires).  Lookbehinds examine the original text, so the scan
threads the previous character of the input.  A replacement callback that
raises is modelled by `none`; the fuel argument (always instantiated with
`length + 1`, an upper bound on the number of scan steps) makes the
recursion structural. -/

/-- One leftmost-match attempt: given the previous input character and the
remaining text, a matcher yields (captured groups, matched text, rest). -/
abbrev Matcher (γ : Type) := Option Char → List Char → Option (γ × List Char × List Char)

/-- `re.sub` with a state-threading, fallible callback.  The callback also
receives the matched text (`match.group(0)`). -/
def reSub {γ σ : Type} (tryM : Matcher γ)
    (cb : σ → γ → List Char → Option (σ × List Char)) :
    Nat → Option Char → σ → List Char → Option (σ × List Char)
  | 0, _, _, _ => none
  | _ + 1, _, st, [] => some (st, [])
  | f + 1, prev, st, c :: t =>
    match tryM prev (c :: t) with
    | some (g, matched, rest) =>
      match cb st g matched with
      | none => none
      | some (st', rep) =>
        match reSub tryM cb f (matched.getLast?.orElse fun _ => prev) st' rest with
        | none => none
        | some (st'', out) => some (st'', rep ++ out)
    | none =>
      match reSub tryM cb f (some c) st t with
      | none => none
      | some (st', out) => some (st', c :: out)

/-! ## Character classes

ASCII parts of the Python classes used by the patterns. -/

/-- Python `\s` (ASCII part): space, tab, newline, carriage return,
vertical tab, form feed. -/
def isWsPy (c : Char) : Bool :=
  c = ' ' || c = '\t' || c = '\n' || c = '\r' || c = '\x0b' || c = '\x0c'

/-- Python `\w` (ASCII part): letters, digits, underscore. -/
def isWordPy (c : Char) : Bool := c.isAlphanum || c = '_'

/-! ## `_re_code`: inline code spans

Pattern: a backtick not preceded by a backslash, then `(?P<code>.+)`
(greedy, no newline), then a backtick not preceded by a backslash.  Greedy
`.+` means the closing backtick is the **last** backtick on the line whose
preceding character is not a backslash (the preceding character is the last
character of the code, which must be at least one character long). -/

/-- Captures shared by the two code-masking patterns: the code body and the
optional shebang language directive (`None` for `_re_code`, which has no
`shebang` group — the source reads it under `try/except`). -/
structure CodeG where
  code : List Char
  shebang : Option (List Char)
deriving DecidableEq

/-- Index (counted inside the text after the opening backtick) of the
greedy closing backtick: the largest `i ≥ 1` before the end of the line
with a backtick at `i` not preceded by a backslash. -/
def codeClose (prevc : Char) (i : Nat) : List Char → Option Nat
  | [] => none
  | c :: t =>
    if c = '\n' then none
    else
      match codeClose c (i + 1) t with
      | some j => some j
      | none => if c = '`' && prevc ≠ '\\' && 1 ≤ i then some i else none

/-- Matcher for `_re_code`. -/
def tryCode : Matcher CodeG := fun prev s =>
  match s with
  | '`' :: t =>
    if prev = some '\\' then none
    else
      match codeClose '`' 0 t with
      | some j => some (⟨t.take j, none⟩, '`' :: (t.take j ++ ['`']), t.drop (j + 1))
      | none => none
  | _ => none

/-! ## `_re_codeblock`: fenced code blocks

Pattern: `{{{`, an optional whitespace-then-`#!`-then-directive-to-end-of-
line group, then lazy `(?P<code>.*?)` (DOTALL), then `}}}`.  Only the first
brace of each fence carries the `(?<!\\)` lookbehind that can see outside
the fence; the others are preceded by braces.  The lazy body ends at the
first `}}}` whose first `}` is not preceded by a backslash.  When the
shebang group matches, its `$` is zero-width, so the code body starts at
the newline that terminated the directive. -/

/-- Characters allowed in the shebang directive: `[ \w\=\"\']`. -/
def isShebangChar (c : Char) : Bool :=
  c = ' ' || isWordPy c || c = '=' || c = '"' || c = '\''

/-- Index of the first (lazy) closing fence `}}}` whose first `}` is not
preceded by a backslash. -/
def blockClose (prevc : Char) (i : Nat) : List Char → Option Nat
  | [] => none
  | c :: t =>
    match c, t with
    | '\x7d', '\x7d' :: '\x7d' :: _ =>
      if prevc ≠ '\\' then some i else blockClose c (i + 1) t
    | _, _ => blockClose c (i + 1) t

/-- Matcher for `_re_codeblock`. -/
def tryCodeblock : Matcher CodeG := fun prev s =>
  match s with
  | '\x7b' :: '\x7b' :: '\x7b' :: t =>
    if prev = some '\\' then none
    else
      let ws := t.takeWhile isWsPy
      let t1 := t.dropWhile isWsPy
      let sheb : Option (List Char × List Char) :=
        match t1 with
        | '#' :: '!' :: t2 =>
          let sb := t2.takeWhile isShebangChar
          let t3 := t2.dropWhile isShebangChar
          if sb ≠ [] && (t3 = [] || t3.head? = some '\n') then some (sb, t3) else none
        | _ => none
      match sheb with
      | some (sb, t3) =>
        match blockClose (sb.getLastD '!') 0 t3 with
        | some j =>
          some (⟨t3.take j, some sb⟩,
            '\x7b' :: '\x7b' :: '\x7b' :: (ws ++ '#' :: '!' :: sb ++ t3.take j
              ++ ['\x7d', '\x7d', '\x7d']),
            t3.drop (j + 3))
        | none => none
      | none =>
        match blockClose '\x7b' 0 t with
        | some j =>
          some (⟨t.take j, none⟩,
            '\x7b' :: '\x7b' :: '\x7b' :: (t.take j ++ ['\x7d', '\x7d', '\x7d']),
            t.drop (j + 3))
        | none => none
  | _ => none

/-! ## `_re_text_style`: quote-run emphasis

Pattern: `(?P<prefix>(?:(?:(?<!\\)\'){2,3}){1,2})(?P<text>.*?)(?P=prefix)`.
The prefix is one or two runs of two-or-three quotes; only its first quote
can see a character outside the prefix, so the lookbehind applies to the
first quote only.  The engine's backtracking order for the prefix length is
3+3, 3+2, 3, 2+3, 2+2, 2; the two ways of writing 5 capture the same text
and are tried adjacently, so the order of distinct lengths is
6, 5, 3, 4, 2.  The lazy body ends at the first later run of `prefix`
quotes (a plain backreference, with no lookbehind of its own). -/

/-- Captures of `_re_text_style`: the prefix run length and the body. -/
structure StyleG where
  prefixLen : Nat
  text : List Char
deriving DecidableEq

/-- Does the text start with `L` quote characters? -/
def quoteRunAt (L : Nat) (s : List Char) : Bool :=
  s.take L = List.replicate L '\''

/-- Index of the first position where a run of `L` quotes starts. -/
def findQRun (L : Nat) (i : Nat) : List Char → Option Nat
  | [] => if quoteRunAt L [] then some i else none
  | c :: t => if quoteRunAt L (c :: t) then some i else findQRun L (i + 1) t

/-- One prefix-length attempt of `_re_text_style`. -/
def tryStyleAt (L : Nat) : Matcher StyleG := fun prev s =>
  if quoteRunAt L s && prev ≠ some '\\' then
    match findQRun L 0 (s.drop L) with
    | some j =>
      some (⟨L, (s.drop L).take j⟩, s.take (L + j + L), (s.drop L).drop (j + L))
    | none => none
  else none

/-- Matcher for `_re_text_style`, trying prefix lengths in engine order. -/
def tryStyle : Matcher StyleG := fun prev s =>
  (tryStyleAt 6 prev s).orElse fun _ =>
  (tryStyleAt 5 prev s).orElse fun _ =>
  (tryStyleAt 3 prev s).orElse fun _ =>
  (tryStyleAt 4 prev s).orElse fun _ =>
  tryStyleAt 2 prev s

/-! ## `_re_headlines`

Pattern: `^(?P<level>((?<!\\)=)+)\s*(?P<title>[^=]+)\s*(?P=level)\s*$`
(MULTILINE).  The level run is the maximal `=` run at a line start (a
shorter run would leave `=` as the first title character, which `[^=]+`
rejects).  `[^=]` and `\s` both match newlines, so the title may span
lines.  The greedy leading `\s*` takes the maximal whitespace prefix, but
backs off one character when the title would otherwise be empty; the
greedy title then takes everything up to the next `=` (keeping trailing
whitespace — the middle `\s*` matches empty).  The backreference therefore
sits exactly at the next `=` run, which must have length exactly `level`.
The trailing `\s*$` consumes the longest whitespace run ending at the end
of the string, or up to (not including) the last newline of that run. -/

/-- Captures of `_re_headlines`. -/
structure HeadG where
  level : Nat
  title : List Char
deriving DecidableEq

/-- Index of the last newline in a list, if any. -/
def lastNl (i : Nat) (acc : Option Nat) : List Char → Option Nat
  | [] => acc
  | c :: t => lastNl (i + 1) (if c = '\n' then some i else acc) t

/-- Matcher for `_re_headlines`. -/
def tryHead : Matcher HeadG := fun prev s =>
  if prev = none || prev = some '\n' then
    let eqs := s.takeWhile (· = '=')
    let t := s.dropWhile (· = '=')
    if eqs = [] then none
    else
      let L := eqs.length
      let mid := t.takeWhile (· ≠ '=')
      let u := t.dropWhile (· ≠ '=')
      if mid ≠ [] && u.take L = List.replicate L '=' && (u.drop L).head? ≠ some '=' then
        let v := u.drop L
        let wsr := v.takeWhile isWsPy
        let w := v.dropWhile isWsPy
        let k? : Option Nat := if w = [] then some wsr.length else lastNl 0 none wsr
        match k? with
        | some k =>
          let w1 := min (mid.takeWhile isWsPy).length (mid.length - 1)
          some (⟨L, mid.drop w1⟩, s.take (L + mid.length + L + k), v.drop k)
        | none => none
      else none
  else none

/-! ## `_re_breaklines`

Pattern: `(?:[^\!]|^)(\\{2}|\[{2}br\]{2})` (IGNORECASE, MULTILINE).  The
alternation tries `[^\!]` first, so when any character other than `!`
precedes the marker it is **consumed into the match** (and deleted by the
substitution); the zero-width `^` branch applies only at a line start
where the first branch failed. -/

/-- The marker alternatives `\\{2}` and `\[{2}br\]{2}` (case-insensitive
`br`); returns the marker length. -/
def tryBrkMarker : List Char → Option Nat
  | '\\' :: '\\' :: _ => some 2
  | '[' :: '[' :: c1 :: c2 :: ']' :: ']' :: _ =>
    if (c1 = 'b' || c1 = 'B') && (c2 = 'r' || c2 = 'R') then some 6 else none
  | _ => none

/-- Matcher for `_re_breaklines`. -/
def tryBreak : Matcher Unit := fun prev s =>
  let lineStart : Option (Unit × List Char × List Char) :=
    if prev = none || prev = some '\n' then
      match tryBrkMarker s with
      | some n => some ((), s.take n, s.drop n)
      | none => none
    else none
  match s with
  | c :: t =>
    if c ≠ '!' then
      match tryBrkMarker t with
      | some n => some ((), c :: t.take n, t.drop n)
      | none => lineStart
    else lineStart
  | [] => none

/-! ## `_re_code_placeholder`

Pattern: `%%%%%%%%{(?P<hash>[a-f0-9]+)}%%%%%%%%` (IGNORECASE, so the hex
class also accepts `A`–`F`). -/

/-- Captures of `_re_code_placeholder`. -/
structure PhG where
  hashId : List Char
deriving DecidableEq

/-- Case-insensitive `[a-f0-9]`. -/
def isHexIC (c : Char) : Bool :=
  c.isDigit || ('a' ≤ c && c ≤ 'f') || ('A' ≤ c && c ≤ 'F')

/-- Match a literal prefix, returning the rest. -/
def dropLit : List Char → List Char → Option (List Char)
  | [], s => some s
  | _ :: _, [] => none
  | c :: lt, d :: st => if c = d then dropLit lt st else none

/-- Matcher for `_re_code_placeholder`. -/
def tryPlaceholder : Matcher PhG := fun _ s =>
  match dropLit "%%%%%%%%\x7b".data s with
  | some t =>
    let hx := t.takeWhile isHexIC
    let t1 := t.dropWhile isHexIC
    if hx ≠ [] then
      match t1 with
      | '\x7d' :: r =>
        match dropLit "%%%%%%%%".data r with
        | some rest => some (⟨hx⟩, s.take (8 + 1 + hx.length + 1 + 8), rest)
        | none => none
      | _ => none
    else none
  | none => none

/-! ## `_re_inline_links`

Pattern (MULTILINE, no IGNORECASE):
`(?:(?<![\!\(\[])|^)` — the position must not be preceded by `!`, `(` or
`[` (the `^` branch adds nothing: a start-of-line character is never one
of those three); then a lazy-optional cross-project `target` (a
`[a-zA-Z0-9\-_]+` run followed by `:`), a greedy-optional `linktype`
keyword with `:`, an optional double quote captured as `quoting`, the
`name` — conditional on `linktype`: a `[a-zA-Z0-9\-_#\/]+` run when typed,
else two-or-more CamelCase-style segments `[A-Z#][a-z0-9\-_#\/]+` — and a
backreference to `quoting`.

Engine order: target absent first (`??`), and within that the typed
alternative before the bare one (`?` is greedy); the target-present branch
is attempted only when both fail.  The outer `+` on the name group can
never iterate more than once (each alternative is itself an unbounded
greedy repetition over classes disjoint from what could follow), and when
`quoting` captured `"` the backreference succeeds exactly when the
character after the greedy name is `"` (no shorter parse can end before a
quote, since the name classes exclude it). -/

/-- Captures of `_re_inline_links`.  `quoting` always participates (it can
match the empty string); `name` always participates. -/
structure InlineG where
  target : Option (List Char)
  linktype : Option (List Char)
  quoting : List Char
  name : List Char
deriving DecidableEq

/-- `[a-zA-Z0-9\-_]`, the target-project class. -/
def isTargetChar (c : Char) : Bool := c.isAlphanum || c = '-' || c = '_'

/-- `[a-zA-Z0-9\-_#\/]`, the typed-name class. -/
def isTypedChar (c : Char) : Bool :=
  c.isAlphanum || c = '-' || c = '_' || c = '#' || c = '/'

/-- `[A-Z#]`, a bare-name segment head. -/
def isBareHead (c : Char) : Bool := ('A' ≤ c && c ≤ 'Z') || c = '#'

/-- `[a-z0-9\-_#\/]`, a bare-name segment tail character. -/
def isBareTail (c : Char) : Bool :=
  ('a' ≤ c && c ≤ 'z') || c.isDigit || c = '-' || c = '_' || c = '#' || c = '/'

/-- The five `linktype` keywords, each followed by `:`; at most one can
match at a given position (their first letters differ). -/
def kwMatch (t : List Char) : Option (List Char × List Char) :=
  (["wiki", "ticket", "report", "changeset", "source"].map String.data).firstM
    fun kw => (dropLit (kw ++ [':']) t).map fun r => (kw, r)

/-- One bare segment with its greedy (maximal) tail: consumed length and
rest, or `none` when no segment starts here. -/
def segAt : List Char → Option (Nat × List Char)
  | [] => none
  | c :: t =>
    if isBareHead c then
      let tl := t.takeWhile isBareTail
      if tl = [] then none else some (1 + tl.length, t.dropWhile isBareTail)
    else none

/-- Greedy continuation: consume further maximal-tail segments while
possible (no backtracking pressure remains once two segments matched). -/
def greedyChain (fuel : Nat) (s : List Char) : Nat :=
  match fuel with
  | 0 => 0
  | f + 1 =>
    match segAt s with
    | some (n, r) => n + greedyChain f r
    | none => 0

/-- Backtracking over the first segment's tail length (longest first, as
the greedy engine does) until a second segment can start; `t` is the text
after the first segment's head. -/
def bareSplit (fuel : Nat) (t : List Char) : Nat → Option Nat
  | 0 => none
  | tl + 1 =>
    match segAt (t.drop (tl + 1)) with
    | some (n2, r2) => some ((tl + 1) + n2 + greedyChain fuel r2)
    | none => bareSplit fuel t tl

/-- Total length consumed by the bare-name alternative
`(?:[A-Z#][a-z0-9\-_#\/]+){2,}` at the head of `s` (first parse in the
engine's backtracking order), or `none`. -/
def bareName (s : List Char) : Option Nat :=
  match s with
  | [] => none
  | c :: t =>
    if isBareHead c then
      (bareSplit s.length t (t.takeWhile isBareTail).length).map (1 + ·)
    else none

/-- The quoting-and-name part shared by both branches, for the **typed**
alternative: `t` starts after `linktype:`.  Returns (quoting, name,
consumed length including quotes). -/
def typedTail (t : List Char) : Option (List Char × List Char × Nat) :=
  match t with
  | '"' :: t1 =>
    let nm := t1.takeWhile isTypedChar
    if nm ≠ [] && (t1.dropWhile isTypedChar).head? = some '"' then
      some (['"'], nm, nm.length + 2)
    else none
  | _ =>
    let nm := t.takeWhile isTypedChar
    if nm ≠ [] then some ([], nm, nm.length) else none

/-- The quoting-and-name part for the **bare** alternative. -/
def bareTail2 (t : List Char) : Option (List Char × List Char × Nat) :=
  match t with
  | '"' :: t1 =>
    match bareName t1 with
    | some n =>
      if (t1.drop n).head? = some '"' then some (['"'], t1.take n, n + 2) else none
    | none => none
  | _ =>
    match bareName t with
    | some n => some ([], t.take n, n)
    | none => none

/-- Everything after an (absent or consumed) target: the typed alternative
first, falling back to the bare one.  Returns (linktype, quoting, name,
consumed length). -/
def afterTarget (t : List Char) :
    Option (Option (List Char) × List Char × List Char × Nat) :=
  match kwMatch t with
  | some (kw, r) =>
    match typedTail r with
    | some (q, nm, len) => some (some kw, q, nm, kw.length + 1 + len)
    | none =>
      (bareTail2 t).map fun (q, nm, len) => (none, q, nm, len)
  | none =>
    (bareTail2 t).map fun (q, nm, len) => (none, q, nm, len)

/-- Matcher for `_re_inline_links`. -/
def tryInline : Matcher InlineG := fun prev s =>
  if prev = some '!' || prev = some '(' || prev = some '[' then none
  else
    match afterTarget s with
    | some (lt, q, nm, len) => some (⟨none, lt, q, nm⟩, s.take len, s.drop len)
    | none =>
      let tw := s.takeWhile isTargetChar
      let t1 := s.dropWhile isTargetChar
      if tw ≠ [] && t1.head? = some ':' then
        (afterTarget (t1.drop 1)).map fun (lt, q, nm, len) =>
          (⟨some tw, lt, q, nm⟩, s.take (tw.length + 1 + len),
            s.drop (tw.length + 1 + len))
      else none

/-! ## `_re_marked_links`

Pattern: `(?=[^\!]|^)\[{1,2}(?:(?P<macro>\w+)\()?(?P<link>[^ |\[\]]+)`
`(?(macro)\))(?:[ |](?P<name>[\s\w]+?))?\]{1,2}`.  The lookahead is
vacuous: the character at the match position must be `[`, which already
satisfies `[^\!]`.  In the macro form, the greedy link run (whose class
contains `)`) backs off to the **last** `)` inside it.  The lazy display
name grows one `[\s\w]` character at a time until a `]` follows; if it
hits a foreign character first, the whole optional group is dropped, and
then a `]` must follow the link directly. -/

/-- Captures of `_re_marked_links` (`mname` is the group `macro`). -/
structure MarkedG where
  mname : Option (List Char)
  link : List Char
  dispName : Option (List Char)
deriving DecidableEq

/-- `[^ |\[\]]`, the link-target class. -/
def isLinkChar (c : Char) : Bool :=
  !(c = ' ' || c = '|' || c = '[' || c = ']')

/-- `[\s\w]`, the display-name class. -/
def isNameChar (c : Char) : Bool := isWsPy c || isWordPy c

/-- Index of the last `)` in the list, if any. -/
def lastParen (i : Nat) (acc : Option Nat) : List Char → Option Nat
  | [] => acc
  | c :: t => lastParen (i + 1) (if c = ')' then some i else acc) t

/-- Lazy scan of `(?P<name>[\s\w]+?)` up to a following `]`:
returns (name, rest starting at the `]`). -/
def nameScan : List Char → Option (List Char × List Char)
  | [] => none
  | c :: t =>
    if isNameChar c then
      match t with
      | ']' :: _ => some ([c], t)
      | _ => (nameScan t).map fun (n, r) => (c :: n, r)
    else none

/-- `\]{1,2}` (greedy): number of closing brackets consumed and the rest. -/
def closeBr : List Char → Option (Nat × List Char)
  | ']' :: ']' :: t => some (2, t)
  | ']' :: t => some (1, t)
  | _ => none

/-- The macro-form link part `(?P<macro>\w+)\((?P<link>...)\)`: the greedy
link (whose class contains `)`) backs off to the last `)` inside its run —
no earlier `)` can satisfy what follows, since the character after it
would be another link-class character.  Returns (macro, link, consumed
length from after the opening brackets, rest). -/
def markedMacro (t : List Char) :
    Option (List Char × List Char × Nat × List Char) :=
  let mw := t.takeWhile isWordPy
  let t1 := t.dropWhile isWordPy
  if mw ≠ [] && t1.head? = some '(' then
    let t2 := t1.drop 1
    let lr := t2.takeWhile isLinkChar
    match lastParen 0 none lr with
    | some j =>
      if 1 ≤ j then
        some (mw, lr.take j, mw.length + 1 + j + 1, t2.drop (j + 1))
      else none
    | none => none
  else none

/-- The macro-absent link part: a maximal non-empty `[^ |\[\]]+` run. -/
def markedPlain (t : List Char) : Option (List Char × Nat × List Char) :=
  let lr := t.takeWhile isLinkChar
  if lr ≠ [] then some (lr, lr.length, t.dropWhile isLinkChar) else none

/-- The optional display name and the closing `\]{1,2}` of
`_re_marked_links`, applied after the link part. -/
def finishMarked (s : List Char) (nb : Nat) (mac : Option (List Char))
    (lk : List Char) (len1 : Nat) (u : List Char) :
    Option (MarkedG × List Char × List Char) :=
  match u with
  | ' ' :: u1 =>
    match nameScan u1 with
    | some (nm, r) =>
      (closeBr r).map fun (nc, rest) =>
        (⟨mac, lk, some nm⟩, s.take (nb + len1 + 1 + nm.length + nc), rest)
    | none => none
  | '|' :: u1 =>
    match nameScan u1 with
    | some (nm, r) =>
      (closeBr r).map fun (nc, rest) =>
        (⟨mac, lk, some nm⟩, s.take (nb + len1 + 1 + nm.length + nc), rest)
    | none => none
  | _ =>
    (closeBr u).map fun (nc, rest) =>
      (⟨mac, lk, none⟩, s.take (nb + len1 + nc), rest)

/-- Matcher for `_re_marked_links`.  The greedy optional macro group is
tried first; if anything after it fails, the engine reparses with the
group absent (the link run then restarts at the macro word).  A shorter
link run or a one-bracket reparse of `\[{1,2}` can never recover (the
character following a shortened run is a link-class character, and a link
cannot start with `[`), so no further backtracking is modelled. -/
def tryMarked : Matcher MarkedG := fun _ s =>
  match s with
  | '[' :: r0 =>
    let nb := if r0.head? = some '[' then 2 else 1
    let t := s.drop nb
    let plainRes : Option (MarkedG × List Char × List Char) :=
      match markedPlain t with
      | some (lk, len1, u) => finishMarked s nb none lk len1 u
      | none => none
    match markedMacro t with
    | some (mw, lk, len1, u) =>
      match finishMarked s nb (some mw) lk len1 u with
      | some r => some r
      | none => plainRes
    | none => plainRes
  | _ => none

/-! ## The converter state and the callbacks

`WikiConverter.__init__` stores `pages`, `prefixes` and the accumulating
`mask_map` on the instance.  Python dicts are modelled as association
lists; insertion conses (key uniqueness for `mask_map` is guaranteed by
the collision loop, so lookup order is irrelevant). -/

/-- A `mask_map` entry: `{'code': ..., 'shebang': ...}`. -/
structure MaskEntry where
  code : List Char
  shebang : Option (List Char)
deriving DecidableEq

/-- The `mask_map` instance attribute. -/
abbrev MaskMap := List (List Char × MaskEntry)

/-- The `WikiConverter` instance attributes. -/
structure Converter where
  pages : List (List Char × List Char)
  prefixes : List (List Char × List Char)
  mask_map : MaskMap
deriving DecidableEq

/-- `WikiConverter(pages, prefixes)`: fresh instance, empty mask table. -/
def Converter.mk0 (pages prefixes : List (List Char × List Char)) : Converter :=
  ⟨pages, prefixes, []⟩

/-- The collision loop of `_callback_mask_code`:
`while code_id in self.mask_map: code_id = hash(code_id + '_')`.
The source loop is unbounded; it is run here with fuel `|mask_map| + 1`,
which finds the free identifier whenever the candidates are distinct
(pigeonhole), and `none` models the (divergent) exhaustion case. -/
def newCodeId : Nat → MaskMap → List Char → Option (List Char)
  | 0, _, _ => none
  | f + 1, m, cid =>
    if dictMem m cid then newCodeId f m (hash (cid ++ ['_'])) else some cid

/-- `_callback_mask_code`: hash the code, avoid collisions, store the
entry, return the placeholder `'%%%%%%%%{...}%%%%%%%%'`. -/
def callback_mask_code (m : MaskMap) (g : CodeG) (_matched : List Char) :
    Option (MaskMap × List Char) :=
  (newCodeId (m.length + 1) m (hash g.code)).map fun cid =>
    ((cid, ⟨g.code, g.shebang⟩) :: m,
      "%%%%%%%%\x7b".data ++ cid ++ "\x7d%%%%%%%%".data)

/-- `_callback_convert_code`: restore a masked code span.  When the
identifier is missing from `mask_map` the source executes
`return match.group('0')`, and `'0'` names no group of
`_re_code_placeholder`, so the call raises `IndexError` (`none` here).
Otherwise a fenced block is emitted, with the shebang on the opening fence
when one was recorded (`if not code['shebang']` — `None` and `''` falsy). -/
def callback_convert_code (m : MaskMap) (g : PhG) (_matched : List Char) :
    Option (MaskMap × List Char) :=
  if !dictMem m g.hashId then
    none
  else
    let entry := dictGet m g.hashId ⟨[], none⟩
    if !pyTruthyO entry.shebang then
      some (m, "```".data ++ entry.code ++ "```".data)
    else
      some (m, "```".data ++ (entry.shebang.getD []) ++ '\n' :: entry.code
        ++ '\n' :: "```".data)

/-- `match.groupdict()` for `_re_inline_links`: the four named groups. -/
def inlineGroupdict (g : InlineG) : List (String × Option (List Char)) :=
  [("target", g.target), ("linktype", g.linktype),
   ("quoting", some g.quoting), ("name", some g.name)]

/-- `self.prefixes.get(key, '')` where `key` may be Python `None`
(`None` is never a key of the string-keyed prefix dict). -/
def prefixesGet (prefixes : List (List Char × List Char))
    (k : Option (List Char)) : List Char :=
  match k with
  | none => []
  | some s => dictGet prefixes s []

/-- `_callback_inline_links`.  `'escape' in groups` is always false (the
pattern defines no `escape` group), and `groups.get('type', '')` looks up
a key that is likewise never present (the group is named `linktype`), so
the emitted link type is always the empty string. -/
def callback_inline_links (prefixes : List (List Char × List Char))
    (g : InlineG) (matched : List Char) : List Char :=
  let groups := inlineGroupdict g
  if dictMem groups "escape" && pyTruthyO (dictGet groups "escape" none) then
    matched.drop (pyStrO (dictGet groups "escape" none)).length
  else
    prefixesGet prefixes (dictGet groups "target" none)
      ++ pyStrO (dictGet groups "type" (some []))
      ++ '/' :: pyStrO (dictGet groups "name" (some []))

/-- `_convert_inline_links`: `_re_inline_links.sub(callback, text)`.  The
callback is total, so the only `none` is fuel exhaustion, which the fuel
`length + 1` rules out. -/
def convert_inline_links (prefixes : List (List Char × List Char))
    (t : List Char) : Option (List Char) :=
  (reSub tryInline (fun st g matched =>
      some (st, callback_inline_links prefixes g matched))
    (t.length + 1) none () t).map (·.2)

/-- `match.groupdict()` for `_re_marked_links`. -/
def markedGroupdict (g : MarkedG) : List (String × Option (List Char)) :=
  [("macro", g.mname), ("link", some g.link), ("name", g.dispName)]

/-- `_callback_marked_links`.  The `elif 'name' not in groups` branch is
unreachable (`groupdict()` always carries the key), so unnamed marked
links take the named branch with `groups.get('name', groups['link'])`
evaluating to `None` and `str.format` rendering it as `None`. -/
def callback_marked_links (prefixes : List (List Char × List Char))
    (g : MarkedG) (matched : List Char) : Option (List Char) :=
  let groups := markedGroupdict g
  if dictMem groups "macro" && pyTruthyO (dictGet groups "macro" none) then
    if ((dictGet groups "macro" none).getD []).map Char.toLower == "image".data then
      some ('!' :: '[' :: pyStrO (dictGet groups "name" (some "image".data))
        ++ ']' :: '(' :: pyStrO (dictGet groups "link" none) ++ [')'])
    else
      some matched
  else if !dictMem groups "name" then
    convert_inline_links prefixes (pyStrO (dictGet groups "link" none))
  else
    (convert_inline_links prefixes (pyStrO (dictGet groups "link" none))).map
      fun lk =>
        '[' :: pyStrO (dictGet groups "name" (dictGet groups "link" none))
          ++ ']' :: '(' :: lk ++ [')']

/-- `_convert_marked_links`. -/
def convert_marked_links (prefixes : List (List Char × List Char))
    (t : List Char) : Option (List Char) :=
  (reSub tryMarked (fun st g matched =>
      (callback_marked_links prefixes g matched).map fun out => (st, out))
    (t.length + 1) none () t).map (·.2)

/-- `_callback_text_style`: run length 2 → single emphasis, 3 → double,
5 → double with single inside; any other length falls through without a
`return`, so the callback yields `None` and `re.sub` inserts an empty
replacement. -/
def callback_text_style (g : StyleG) : List Char :=
  if g.prefixLen = 2 then '*' :: g.text ++ ['*']
  else if g.prefixLen = 3 then "**".data ++ g.text ++ "**".data
  else if g.prefixLen = 5 then "**_".data ++ g.text ++ "_**".data
  else []

/-- `_convert_text_style`. -/
def convert_text_style (t : List Char) : Option (List Char) :=
  (reSub tryStyle (fun st g _ => some (st, callback_text_style g))
    (t.length + 1) none () t).map (·.2)

/-- `_callback_headlines`: level 1 underlines the (untrimmed-at-the-end)
title with `=`, level 2 with `-`, deeper levels prefix `#` characters. -/
def callback_headlines (g : HeadG) : List Char :=
  if g.level = 1 then g.title ++ '\n' :: List.replicate g.title.length '='
  else if g.level = 2 then g.title ++ '\n' :: List.replicate g.title.length '-'
  else List.replicate g.level '#' ++ ' ' :: g.title

/-- `_convert_headlines`. -/
def convert_headlines (t : List Char) : Option (List Char) :=
  (reSub tryHead (fun st g _ => some (st, callback_headlines g))
    (t.length + 1) none () t).map (·.2)

/-- `_convert_breaklines`: fixed replacement `'\n\n'`. -/
def convert_breaklines (t : List Char) : Option (List Char) :=
  (reSub tryBreak (fun st _ _ => some (st, ['\n', '\n']))
    (t.length + 1) none () t).map (·.2)

/-- `_mask_code`: the code-block pass, then the inline-code pass, both
threading `mask_map`. -/
def mask_code (m : MaskMap) (t : List Char) : Option (MaskMap × List Char) :=
  (reSub tryCodeblock callback_mask_code (t.length + 1) none m t).bind
    fun (m1, t1) =>
      reSub tryCode callback_mask_code (t1.length + 1) none m1 t1

/-- `_convert_code`: substitute every placeholder via
`_callback_convert_code` (which can raise, hence `Option`). -/
def convert_code (m : MaskMap) (t : List Char) : Option (MaskMap × List Char) :=
  reSub tryPlaceholder callback_convert_code (t.length + 1) none m t

/-- `WikiConverter.convert`: the six-stage pipeline.  The returned
converter carries the updated `mask_map` — the source never clears it. -/
def convert (conv : Converter) (text : List Char) :
    Option (Converter × List Char) :=
  (mask_code conv.mask_map text).bind fun (mm, t1) =>
  (convert_marked_links conv.prefixes t1).bind fun t2 =>
  (convert_inline_links conv.prefixes t2).bind fun t3 =>
  (convert_text_style t3).bind fun t4 =>
  (convert_headlines t4).bind fun t5 =>
  (convert_breaklines t5).bind fun t6 =>
  (convert_code mm t6).map fun (mm2, t7) =>
    ({ conv with mask_map := mm2 }, t7)

/-! ## General lemmas -/

/-- No position of the text (scanned with its true previous character)
matches the pattern. -/
def noMatch {γ : Type} (tryM : Matcher γ) : Option Char → List Char → Bool
  | _, [] => true
  | prev, c :: t => (tryM prev (c :: t)).isNone && noMatch tryM (some c) t

/-- A substitution pass over a text the pattern never matches returns the
text (and the callback state) unchanged. -/
theorem reSub_noMatch {γ σ : Type} (tryM : Matcher γ)
    (cb : σ → γ → List Char → Option (σ × List Char)) :
    ∀ (s : List Char) (fuel : Nat) (prev : Option Char) (st : σ),
      noMatch tryM prev s = true → s.length < fuel →
      reSub tryM cb fuel prev st s = some (st, s) := by
  intro s
  induction s with
  | nil =>
    intro fuel prev st _ hf
    match fuel, hf with
    | f + 1, _ => rfl
  | cons c t ih =>
    intro fuel prev st h hf
    match fuel, hf with
    | f + 1, hf =>
      simp only [noMatch, Bool.and_eq_true, Option.isNone_iff_eq_none] at h
      simp only [reSub, h.1, ih f (some c) st h.2 (Nat.lt_of_succ_lt_succ hf)]

/-- `newCodeId` only ever returns an identifier that is **not** yet a key
of the mask table (the collision loop keeps rehashing until then). -/
theorem newCodeId_not_mem :
    ∀ (f : Nat) (m : MaskMap) (c cid : List Char),
      newCodeId f m c = some cid → dictMem m cid = false := by
  intro f
  induction f with
  | zero => intro m c cid h; exact absurd h (by simp [newCodeId])
  | succ f ih =>
    intro m c cid h
    by_cases hm : dictMem m c
    · exact ih m _ cid (by simpa [newCodeId, hm] using h)
    · simp only [newCodeId, hm, if_false] at h
      cases h
      simpa using hm

/-- A matchless masking pass changes neither text nor mask table. -/
theorem mask_code_noMatch (m : MaskMap) (x : List Char)
    (h1 : noMatch tryCodeblock none x = true)
    (h2 : noMatch tryCode none x = true) :
    mask_code m x = some (m, x) := by
  unfold mask_code
  rw [reSub_noMatch _ _ x _ none m h1 (Nat.lt_succ_self _)]
  simpa using reSub_noMatch _ _ x _ none m h2 (Nat.lt_succ_self _)

/-- A matchless marked-link pass is the identity. -/
theorem convert_marked_links_noMatch (p : List (List Char × List Char))
    (x : List Char) (h : noMatch tryMarked none x = true) :
    convert_marked_links p x = some x := by
  unfold convert_marked_links
  rw [reSub_noMatch _ _ x _ none () h (Nat.lt_succ_self _)]
  rfl

/-- A matchless inline-link pass is the identity. -/
theorem convert_inline_links_noMatch (p : List (List Char × List Char))
    (x : List Char) (h : noMatch tryInline none x = true) :
    convert_inline_links p x = some x := by
  unfold convert_inline_links
  rw [reSub_noMatch _ _ x _ none () h (Nat.lt_succ_self _)]
  rfl

/-- A matchless style pass is the identity. -/
theorem convert_text_style_noMatch (x : List Char)
    (h : noMatch tryStyle none x = true) :
    convert_text_style x = some x := by
  unfold convert_text_style
  rw [reSub_noMatch _ _ x _ none () h (Nat.lt_succ_self _)]
  rfl

/-- A matchless headline pass is the identity. -/
theorem convert_headlines_noMatch (x : List Char)
    (h : noMatch tryHead none x = true) :
    convert_headlines x = some x := by
  unfold convert_headlines
  rw [reSub_noMatch _ _ x _ none () h (Nat.lt_succ_self _)]
  rfl

/-- A matchless breakline pass is the identity. -/
theorem convert_breaklines_noMatch (x : List Char)
    (h : noMatch tryBreak none x = true) :
    convert_breaklines x = some x := by
  unfold convert_breaklines
  rw [reSub_noMatch _ _ x _ none () h (Nat.lt_succ_self _)]
  rfl

/-- A matchless unmasking pass changes neither text nor mask table. -/
theorem convert_code_noMatch (m : MaskMap) (x : List Char)
    (h : noMatch tryPlaceholder none x = true) :
    convert_code m x = some (m, x) := by
  unfold convert_code
  exact reSub_noMatch _ _ x _ none m h (Nat.lt_succ_self _)

/-! ## The claims -/

/-- C5: for every input text `x` that contains no markup trigger of any
stage — no position of `x` matches `_re_codeblock`, `_re_code`,
`_re_marked_links`, `_re_inline_links`, `_re_text_style`, `_re_headlines`,
`_re_breaklines` or `_re_code_placeholder` — `convert(x) = x`, with the
converter state unchanged. -/
theorem convert_plain_text_identity (conv : Converter) (x : List Char)
    (h1 : noMatch tryCodeblock none x = true)
    (h2 : noMatch tryCode none x = true)
    (h3 : noMatch tryMarked none x = true)
    (h4 : noMatch tryInline none x = true)
    (h5 : noMatch tryStyle none x = true)
    (h6 : noMatch tryHead none x = true)
    (h7 : noMatch tryBreak none x = true)
    (h8 : noMatch tryPlaceholder none x = true) :
    convert conv x = some (conv, x) := by
  simp only [convert, mask_code_noMatch conv.mask_map x h1 h2,
    convert_marked_links_noMatch conv.prefixes x h3,
    convert_inline_links_noMatch conv.prefixes x h4,
    convert_text_style_noMatch x h5, convert_headlines_noMatch x h6,
    convert_breaklines_noMatch x h7, convert_code_noMatch conv.mask_map x h8,
    Option.some_bind, Option.map_some']

/-- Witness for C5: `"hello world."` triggers no stage, and `convert`
returns it unchanged. -/
theorem convert_plain_text_identity_witness :
    (noMatch tryCodeblock none "hello world.".data = true ∧
      noMatch tryCode none "hello world.".data = true ∧
      noMatch tryMarked none "hello world.".data = true ∧
      noMatch tryInline none "hello world.".data = true ∧
      noMatch tryStyle none "hello world.".data = true ∧
      noMatch tryHead none "hello world.".data = true ∧
      noMatch tryBreak none "hello world.".data = true ∧
      noMatch tryPlaceholder none "hello world.".data = true) ∧
    convert ⟨[], [], []⟩ "hello world.".data = some (⟨[], [], []⟩, "hello world.".data) :=
  ⟨⟨by decide, by decide, by decide, by decide, by decide, by decide, by decide,
    by decide⟩,
    convert_plain_text_identity ⟨[], [], []⟩ "hello world.".data (by decide)
      (by decide) (by decide) (by decide) (by decide) (by decide) (by decide)
      (by decide)⟩

/-- C1 counterexample: with an empty prefix map, the bare page name
`WikiStart` resolves to `/WikiStart`, not to the claimed `wiki/PageName`
form — the link type does not default to `wiki`. -/
theorem inline_default_linktype_cex :
    convert_inline_links [] "WikiStart".data = some "/WikiStart".data ∧
      convert_inline_links [] "WikiStart".data ≠ some "wiki/WikiStart".data :=
  ⟨by decide, by decide⟩

/-- C1 (amended): inline link resolution produces
`{resolvedPrefix}{linkType}/{name}` where `linkType` is **always the empty
string** — the callback reads `groups.get('type', '')` and no group is
named `type` — so every match resolves to `{resolvedPrefix}/{name}`;
`resolvedPrefix` is `prefixMap[targetProject]` when a cross-project target
was captured and is a key of the map, else empty.  A bare page name with
an empty prefix map converts to `/PageName`, and a cross-project link to
`{prefix}/{name}`. -/
theorem inline_links_resolution :
    (∀ (prefixes : List (List Char × List Char)) (g : InlineG)
        (matched : List Char),
        callback_inline_links prefixes g matched =
          prefixesGet prefixes g.target ++ '/' :: g.name) ∧
      convert_inline_links [] "WikiStart".data = some "/WikiStart".data ∧
      convert_inline_links
          [("other".data, "http://example.org/other/wiki/".data)]
          "other:WikiStart".data =
        some "http://example.org/other/wiki//WikiStart".data ∧
      convert_inline_links [] "wiki:WikiStart".data = some "/WikiStart".data :=
  ⟨fun prefixes g matched => by
      simp [callback_inline_links, inlineGroupdict, dictMem, dictGet, pyStrO],
    by decide, by decide, by decide⟩

/-- C9 counterexample: the escaped inline link `!WikiStart` is left
entirely alone — the escape marker is **not** stripped. -/
theorem inline_escape_strip_cex :
    convert_inline_links [] "!WikiStart".data = some "!WikiStart".data ∧
      convert_inline_links [] "!WikiStart".data ≠ some "WikiStart".data :=
  ⟨by decide, by decide⟩

/-- C9 (amended): the escape marker is never stripped — the pattern
defines no `escape` group, so the callback's stripping branch is dead
code — and the lookbehind rejects exactly the position immediately after
the marker (`tryInline (some '!') s` fails for every `s`), so the marker
and the character directly after it always survive.  The escape does
**not** protect the rest of the occurrence: a later sub-span may still
match and be rewritten.  `!WikiStart` passes through unchanged (no
sub-span after the first character forms a link), while `!WikiStartPage`
becomes `!Wiki/StartPage` (the sub-span `StartPage` matches) and
`!wiki:WikiStart` becomes `!w/WikiStart` (the sub-span `iki:WikiStart`
matches with cross-project target `iki`). -/
theorem inline_escape_passthrough :
    (∀ g : InlineG, dictMem (inlineGroupdict g) "escape" = false) ∧
      (∀ s : List Char, tryInline (some '!') s = none) ∧
      convert_inline_links [] "!WikiStart".data = some "!WikiStart".data ∧
      convert_inline_links [] "!WikiStartPage".data =
        some "!Wiki/StartPage".data ∧
      convert_inline_links [] "!wiki:WikiStart".data =
        some "!w/WikiStart".data :=
  ⟨fun _ => rfl, fun _ => rfl, by decide, by decide, by decide⟩

set_option maxRecDepth 40000 in
/-- C2: the mask table is never cleared — after converting `` `a` `` the
entry for `a` persists on the instance, and a second `convert` call on the
same instance accumulates a second entry next to it. -/
theorem mask_map_accumulates :
    (convert ⟨[], [], []⟩ "`a`".data).map (fun r => (r.1.mask_map, r.2)) =
      some
        ([("ca978112ca1bbdcafac231b39a23dc4da786eff8147c4e72b9807785afee48bb".data,
            ⟨"a".data, none⟩)],
          "```a```".data) ∧
    ((convert ⟨[], [], []⟩ "`a`".data).bind fun r1 =>
        (convert r1.1 "`b`".data).map fun r2 => (r2.1.mask_map, r2.2)) =
      some
        ([("3e23e8160039594a33894f6564e1b1348bbd7a0088d42c4acb73eeaed59c009d".data,
            ⟨"b".data, none⟩),
          ("ca978112ca1bbdcafac231b39a23dc4da786eff8147c4e72b9807785afee48bb".data,
            ⟨"a".data, none⟩)],
          "```b```".data) :=
  ⟨by decide, by decide⟩

/-- C3: unmasking a placeholder whose identifier has no mask-table entry
does **not** pass the text through — `return match.group('0')` asks for a
group named `0`, which `_re_code_placeholder` does not define, so the
callback raises `IndexError` (modelled as `none`), and so does the whole
`convert` call. -/
theorem convert_code_dangling_raises :
    convert_code [] "%%%%%%%%\x7babcdef\x7d%%%%%%%%".data = none ∧
      (∀ matched, callback_convert_code [] ⟨"abcdef".data⟩ matched = none) ∧
      convert ⟨[], [], []⟩ "%%%%%%%%\x7babcdef\x7d%%%%%%%%".data = none :=
  ⟨by decide, fun _ => rfl, by decide⟩

set_option maxRecDepth 40000 in
/-- C4: masking never overwrites a mask-table entry — the collision loop
returns an identifier that is not yet a key, and the new entry is consed
onto the table, preserving every old entry — and on a document with two
byte-identical inline code spans the full pipeline assigns the two
occurrences distinct identifiers (the second derived by rehashing the
first with a `_` salt) and restores both spans. -/
theorem mask_distinct_ids_restore :
    (∀ (m : MaskMap) (g : CodeG) (matched : List Char) (m' : MaskMap)
        (rep : List Char),
        callback_mask_code m g matched = some (m', rep) →
        ∃ cid, dictMem m cid = false ∧
          m' = (cid, ⟨g.code, g.shebang⟩) :: m) ∧
      (convert ⟨[], [], []⟩ "`a`\n`a`".data).map
          (fun r => (r.1.mask_map, r.2)) =
        some
          ([("1c7a06e5ac4defa4e328dfbccc6fac1ec39fa84b6417f9c255adf6bac8f95e74".data,
              ⟨"a".data, none⟩),
            ("ca978112ca1bbdcafac231b39a23dc4da786eff8147c4e72b9807785afee48bb".data,
              ⟨"a".data, none⟩)],
            "```a```\n```a```".data) ∧
      "1c7a06e5ac4defa4e328dfbccc6fac1ec39fa84b6417f9c255adf6bac8f95e74".data ≠
        "ca978112ca1bbdcafac231b39a23dc4da786eff8147c4e72b9807785afee48bb".data := by
  refine ⟨?_, by decide, by decide⟩
  intro m g matched m' rep h
  unfold callback_mask_code at h
  cases hn : newCodeId (m.length + 1) m (hash g.code) with
  | none => rw [hn] at h; exact absurd h (by simp)
  | some cid =>
    rw [hn] at h
    simp only [Option.map_some', Option.some.injEq, Prod.mk.injEq] at h
    exact ⟨cid, newCodeId_not_mem _ _ _ _ hn, h.1.symm⟩

set_option maxRecDepth 40000 in
/-- Witness for C4: masking `a` into an empty table yields a fresh
identifier and conses the one new entry. -/
theorem mask_distinct_ids_restore_witness :
    ∃ cid, dictMem ([] : MaskMap) cid = false ∧
      [("ca978112ca1bbdcafac231b39a23dc4da786eff8147c4e72b9807785afee48bb".data,
          (⟨"a".data, none⟩ : MaskEntry))] =
        (cid, (⟨"a".data, none⟩ : MaskEntry)) :: ([] : MaskMap) :=
  mask_distinct_ids_restore.1 [] ⟨"a".data, none⟩ []
    [("ca978112ca1bbdcafac231b39a23dc4da786eff8147c4e72b9807785afee48bb".data,
        ⟨"a".data, none⟩)]
    ("%%%%%%%%\x7bca978112ca1bbdcafac231b39a23dc4da786eff8147c4e72b9807785afee48bb\x7d%%%%%%%%".data)
    (by decide)

/-- C6 counterexample: `= Title =` converts to `Title ` (trailing space
kept) underlined by **six** `=` characters, not to `Title` underlined by
five. -/
theorem headline_trim_cex :
    convert_headlines "= Title =".data = some "Title \n======".data ∧
      convert_headlines "= Title =".data ≠ some "Title\n=====".data :=
  ⟨by decide, by decide⟩

/-- C6 (amended): the captured title is trimmed of **leading** whitespace
only — trailing whitespace before the closing `=` run stays in the title —
and a level-1 heading renders as the title followed by a line of `=`
characters matching the captured title's length; `= Title =` captures
`Title ` and converts to `Title ` over six `=`. -/
theorem headline_level1 :
    (∀ title : List Char, callback_headlines ⟨1, title⟩ =
        title ++ '\n' :: List.replicate title.length '=') ∧
      (tryHead none "= Title =".data).map (fun r => r.1) =
        some ⟨1, "Title ".data⟩ ∧
      convert_headlines "= Title =".data = some "Title \n======".data ∧
      convert ⟨[], [], []⟩ "= Title =".data =
        some (⟨[], [], []⟩, "Title \n======".data) :=
  ⟨fun _ => rfl, by decide, by decide, by decide⟩

/-- C7: a balanced 2-quote run wraps the span in single emphasis markers,
a 3-run in double markers, and a 5-run in double markers with a single
marker inside; `'''bold'''` converts to `**bold**` and `''italic''` to
`*italic*`. -/
theorem text_style_emphasis :
    (∀ text : List Char, callback_text_style ⟨2, text⟩ =
        '*' :: (text ++ ['*'])) ∧
      (∀ text : List Char, callback_text_style ⟨3, text⟩ =
        '*' :: '*' :: (text ++ "**".data)) ∧
      (∀ text : List Char, callback_text_style ⟨5, text⟩ =
        '*' :: '*' :: '_' :: (text ++ "_**".data)) ∧
      convert ⟨[], [], []⟩ "'''bold'''".data =
        some (⟨[], [], []⟩, "**bold**".data) ∧
      convert ⟨[], [], []⟩ "''italic''".data =
        some (⟨[], [], []⟩, "*italic*".data) ∧
      convert_text_style "'''''x'''''".data = some "**_x_**".data :=
  ⟨fun _ => rfl, fun _ => rfl, fun _ => rfl, by decide, by decide, by decide⟩

/-- C8 counterexample: a balanced pair of 4-quote runs **is** matched (as
a 3-quote prefix with the leftover quote absorbed into the span) and the
text is altered, and a balanced pair of 6-quote runs is matched outright
and the whole span is deleted — neither passes through untouched. -/
theorem style_other_runs_cex :
    convert_text_style "''''x''''".data = some "**'x**'".data ∧
      convert_text_style "''''x''''".data ≠ some "''''x''''".data ∧
      convert_text_style "''''''x''''''".data = some [] ∧
      convert_text_style "''''''x''''''".data ≠ some "''''''x''''''".data :=
  ⟨by decide, by decide, by decide, by decide⟩

/-- C8 (amended): no error is raised, but the style stage does match runs
of other lengths: a 4-run pair is consumed via a 3-quote prefix (the extra
quote lands inside the span, altering the text), and a 6-run pair matches
with prefix length 6, for which the callback falls through returning
`None` and `re.sub` deletes the span.  The callback returns the empty
replacement for every run length other than 2, 3 and 5. -/
theorem style_other_runs :
    convert_text_style "''''x''''".data = some "**'x**'".data ∧
      convert_text_style "''''''x''''''".data = some [] ∧
      (∀ text : List Char, callback_text_style ⟨4, text⟩ = []) ∧
      (∀ text : List Char, callback_text_style ⟨6, text⟩ = []) :=
  ⟨by decide, by decide, fun _ => rfl, fun _ => rfl⟩

/-- C10 counterexample: the breakline match **consumes the character
before the marker** — `a\\b` becomes `\n\nb`, losing the `a`, not
`a\n\nb`. -/
theorem breaklines_frame_cex :
    convert_breaklines "a\\\\b".data = some "\n\nb".data ∧
      convert_breaklines "a\\\\b".data ≠ some "a\n\nb".data :=
  ⟨by decide, by decide⟩

/-- C10 (amended): each scanned occurrence of a double-backslash marker
or a double-bracket line-break macro is replaced by a blank line together
with the **single character immediately preceding the marker — whatever
it is, including a preceding newline** (the `[^\!]` branch of the pattern
is tried before the zero-width line-start branch, so a marker at a line
start still loses the newline before it); nothing extra is consumed only
when the marker stands at the very start of the text, and an occurrence
directly preceded by `!` is not rewritten. -/
theorem breaklines_replace :
    (∀ (prev : Option Char) (t : List Char),
        tryBreak prev ('\n' :: '\\' :: '\\' :: t) =
          some ((), ['\n', '\\', '\\'], t)) ∧
      convert_breaklines "a\\\\b".data = some "\n\nb".data ∧
      convert_breaklines "x[[br]]y".data = some "\n\ny".data ∧
      convert_breaklines "q\n\\\\z".data = some "q\n\nz".data ∧
      convert_breaklines "q\n\\\\z".data ≠ some "q\n\n\nz".data ∧
      convert_breaklines "\\\\z".data = some "\n\nz".data ∧
      convert_breaklines "ab\ncd\\\\ef".data = some "ab\nc\n\nef".data ∧
      convert_breaklines "!\\\\".data = some "!\\\\".data :=
  ⟨fun _ _ => rfl, by decide, by decide, by decide, by decide, by decide,
    by decide, by decide⟩

end TracWiki
